import Mathlib

/-!
Shallow embedding of `src/windows/aa.py` (an aligned speedtest scheduler).

The first part models the calendar/datetime arithmetic that CPython's
`datetime` module performs for the expressions used by the script
(`now.minute`, `now.hour`, `now.date() + timedelta(days = k)`,
`datetime.combine`, aware-datetime comparison).  The second part embeds
`calculate_next_run_time`, `run_speedtest`, `append_to_file` and the
`main` loop, the latter as a step function over an explicit event list.
-/

namespace P188Speedtest

/-- Proleptic-Gregorian leap-year rule, the one CPython's `datetime.date`
arithmetic uses. -/
def isLeap (y : Nat) : Bool :=
  y % 4 == 0 && (y % 100 != 0 || y % 400 == 0)

/-- Number of days in month `m` (1-based) of year `y`. -/
def daysInMonth (y m : Nat) : Nat :=
  if m = 2 then (if isLeap y then 29 else 28)
  else if m = 4 ∨ m = 6 ∨ m = 9 ∨ m = 11 then 30
  else 31

/-- Days of year `y` that precede month `m` (1-based; table form). -/
def daysBeforeMonth (y m : Nat) : Nat :=
  let feb := daysInMonth y 2
  match m with
  | 2 => 31
  | 3 => 31 + feb
  | 4 => 62 + feb
  | 5 => 92 + feb
  | 6 => 123 + feb
  | 7 => 153 + feb
  | 8 => 184 + feb
  | 9 => 215 + feb
  | 10 => 245 + feb
  | 11 => 276 + feb
  | 12 => 306 + feb
  | _ => 0

/-- Days before January 1 of year `y` in the proleptic Gregorian calendar. -/
def daysBeforeYear (y : Nat) : Nat :=
  365 * (y - 1) + (y - 1) / 4 + (y - 1) / 400 - (y - 1) / 100

/-- A calendar date, as CPython's `datetime.date`. -/
structure Date where
  year : Nat
  month : Nat
  day : Nat
  deriving DecidableEq

/-- The ordinal-day number of a date (CPython's `date.toordinal`). -/
def Date.toOrdinal (d : Date) : Nat :=
  daysBeforeYear d.year + daysBeforeMonth d.year d.month + d.day

/-- The field ranges `datetime.date` guarantees for every constructed value. -/
def Date.Valid (d : Date) : Prop :=
  1 ≤ d.year ∧ 1 ≤ d.month ∧ d.month ≤ 12 ∧ 1 ≤ d.day ∧
    d.day ≤ daysInMonth d.year d.month

instance (d : Date) : Decidable d.Valid := by
  unfold Date.Valid; infer_instance

/-- The successor day (`datetime.date` plus one day). -/
def nextDay (d : Date) : Date :=
  if d.day < daysInMonth d.year d.month then ⟨d.year, d.month, d.day + 1⟩
  else if d.month < 12 then ⟨d.year, d.month + 1, 1⟩
  else ⟨d.year + 1, 1, 1⟩

/-- Models `d + datetime.timedelta(days = n)` for `n ≥ 0`. -/
def addDays (d : Date) : Nat → Date
  | 0 => d
  | n + 1 => nextDay (addDays d n)

/-- A naive local datetime (no timezone attached), microsecond precision. -/
structure Naive where
  date : Date
  hour : Nat
  minute : Nat
  second : Nat
  micro : Nat
  deriving DecidableEq

/-- Microseconds from the ordinal epoch to a naive datetime (strictly
monotone in the lexicographic field order for in-range values). -/
def naiveAbs (n : Naive) : Nat :=
  n.date.toOrdinal * 86400000000 + n.hour * 3600000000 +
    n.minute * 60000000 + n.second * 1000000 + n.micro

/-- A timezone-aware datetime: wall-clock fields plus the UTC offset (in
minutes) its tzinfo reports at that point.  CPython compares aware
datetimes by their UTC instant, which this offset determines. -/
structure DateTime where
  wall : Naive
  offsetMin : Int
  deriving DecidableEq

/-- The UTC instant of an aware datetime, in microseconds. -/
def utcAbs (t : DateTime) : Int :=
  (naiveAbs t.wall : Int) - t.offsetMin * 60000000

/-- The field ranges CPython guarantees for an aware datetime. -/
def DateTime.Valid (t : DateTime) : Prop :=
  t.wall.date.Valid ∧ t.wall.hour < 24 ∧ t.wall.minute < 60 ∧
    t.wall.second < 60 ∧ t.wall.micro < 1000000

instance (t : DateTime) : Decidable t.Valid := by
  unfold DateTime.Valid; infer_instance

/-- Line 104 and 108 of aa.py: the absolute target minute of candidate 1,
`now.hour * 60 + (now.minute // 10) * 10 + offset_minutes`. -/
def target1MinuteAbs (now : DateTime) (offset_minutes : Nat) : Nat :=
  now.wall.hour * 60 + (now.wall.minute / 10) * 10 + offset_minutes

/-- Lines 140 and 143 of aa.py: the absolute target minute of candidate 2,
using the next 10-minute block, `((now.minute // 10) + 1) * 10`. -/
def target2MinuteAbs (now : DateTime) (offset_minutes : Nat) : Nat :=
  now.wall.hour * 60 + (now.wall.minute / 10 + 1) * 10 + offset_minutes

/-- Lines 111-117 (dually 146-152) of aa.py: split an absolute minute into
hour and minute, carry whole days into the date with timedelta arithmetic,
and build the naive candidate with `datetime.combine` (second and
microsecond are zero). -/
def slotNaive (d : Date) (minuteAbs : Nat) : Naive :=
  let hourAbs := minuteAbs / 60
  let minuteFinal := minuteAbs % 60
  let date := addDays d (hourAbs / 24)
  let hourFinal := hourAbs % 24
  ⟨date, hourFinal, minuteFinal, 0, 0⟩

/-- Lines 122-128 (dually 157-162) of aa.py: attach the zone to a naive
candidate.  The zone lookup is the external collaborator; it either
produces an aware datetime or signals that the local time cannot be
attached, in which case the script falls back to the fixed UTC offset of
`now` (`replace(tzinfo=datetime.timezone(now.utcoffset()))`). -/
def attachZone (attach : Naive → Except Unit DateTime) (now : DateTime)
    (n : Naive) : DateTime :=
  match attach n with
  | .ok a => a
  | .error _ => ⟨n, now.offsetMin⟩

/-- A zone with no transitions (such as the configured Asia/Tokyo): every
local time is attached with the same fixed UTC offset and never fails. -/
def zoneinfoFixed (δ : Int) : Naive → Except Unit DateTime :=
  fun n => .ok ⟨n, δ⟩

/-- Lines 96-167 of aa.py, `calculate_next_run_time`.  The `clock`
argument is the value of the fresh `get_current_time()` read performed at
line 100; the `current_time` parameter of the source is kept but — as in
the source — never consulted. -/
def calculate_next_run_time (attach : Naive → Except Unit DateTime)
    (clock : DateTime) (current_time : DateTime)
    (offset_minutes : Nat) : DateTime :=
  let now := clock
  let target1_time :=
    attachZone attach now (slotNaive now.wall.date (target1MinuteAbs now offset_minutes))
  if utcAbs now < utcAbs target1_time then
    target1_time
  else
    attachZone attach now (slotNaive now.wall.date (target2MinuteAbs now offset_minutes))

/-! Calendar lemmas: the successor day increments the ordinal by one and
preserves validity, hence day-carry by `addDays` is ordinal-linear. -/

lemma one_le_daysInMonth (y m : Nat) : 1 ≤ daysInMonth y m := by
  unfold daysInMonth
  split
  · split <;> norm_num
  · split <;> norm_num

lemma daysBeforeMonth_succ (y m : Nat) (h1 : 1 ≤ m) (h2 : m ≤ 11) :
    daysBeforeMonth y (m + 1) = daysBeforeMonth y m + daysInMonth y m := by
  interval_cases m <;>
    cases h : isLeap y <;>
      simp [daysBeforeMonth, daysInMonth, h]

lemma daysBeforeYear_as_sum (y : Nat) :
    daysBeforeYear y + (y - 1) / 100 =
      365 * (y - 1) + (y - 1) / 4 + (y - 1) / 400 := by
  have h : (y - 1) / 100 ≤ 365 * (y - 1) + (y - 1) / 4 + (y - 1) / 400 := by
    have h1 : (y - 1) / 100 ≤ y - 1 := Nat.div_le_self _ _
    have h2 : y - 1 ≤ 365 * (y - 1) :=
      Nat.le_mul_of_pos_left _ (by norm_num)
    exact le_trans (le_trans h1 h2)
      (le_trans (Nat.le_add_right _ _) (Nat.le_add_right _ _))
  unfold daysBeforeYear
  exact Nat.sub_add_cancel h

set_option maxHeartbeats 1000000 in
lemma daysBeforeYear_succ (y : Nat) (hy : 1 ≤ y) :
    daysBeforeYear (y + 1) =
      daysBeforeYear y + 365 + (if isLeap y then 1 else 0) := by
  obtain ⟨n, rfl⟩ : ∃ n, y = n + 1 := ⟨y - 1, by omega⟩
  have e1 := daysBeforeYear_as_sum (n + 1 + 1)
  have e2 := daysBeforeYear_as_sum (n + 1)
  cases hIs : isLeap (n + 1) with
  | true =>
      have h2 : (n + 1) % 4 = 0 ∧ (¬ (n + 1) % 100 = 0 ∨ (n + 1) % 400 = 0) := by
        simpa [isLeap] using hIs
      rw [if_pos (rfl : true = true)]
      omega
  | false =>
      have h2 : ¬ ((n + 1) % 4 = 0 ∧ (¬ (n + 1) % 100 = 0 ∨ (n + 1) % 400 = 0)) := by
        intro hc
        have ht : isLeap (n + 1) = true := by
          simp [isLeap]
          tauto
        rw [hIs] at ht
        exact Bool.false_ne_true ht
      rw [if_neg Bool.false_ne_true]
      omega

lemma date_valid_mk (y m day : Nat) :
    (Date.mk y m day).Valid ↔
      1 ≤ y ∧ 1 ≤ m ∧ m ≤ 12 ∧ 1 ≤ day ∧ day ≤ daysInMonth y m := Iff.rfl

lemma date_toOrdinal_mk (y m day : Nat) :
    (Date.mk y m day).toOrdinal =
      daysBeforeYear y + daysBeforeMonth y m + day := rfl

lemma valid_nextDay (d : Date) (h : d.Valid) : (nextDay d).Valid := by
  obtain ⟨hy, hm1, hm2, hd1, hd2⟩ := h
  unfold nextDay
  split
  · rw [date_valid_mk]
    exact ⟨hy, hm1, hm2, by omega, by omega⟩
  · split
    · rw [date_valid_mk]
      exact ⟨hy, by omega, by omega, le_refl 1, one_le_daysInMonth _ _⟩
    · rw [date_valid_mk]
      exact ⟨by omega, le_refl 1, by norm_num, le_refl 1,
        one_le_daysInMonth _ _⟩

lemma toOrdinal_nextDay (d : Date) (h : d.Valid) :
    (nextDay d).toOrdinal = d.toOrdinal + 1 := by
  obtain ⟨hy, hm1, hm2, hd1, hd2⟩ := h
  unfold nextDay
  have hord : d.toOrdinal =
      daysBeforeYear d.year + daysBeforeMonth d.year d.month + d.day := rfl
  split
  · rw [date_toOrdinal_mk, hord]
    omega
  · rename_i hday
    split
    · rename_i hmon
      rw [date_toOrdinal_mk, hord]
      have := daysBeforeMonth_succ d.year d.month hm1 (by omega)
      omega
    · rename_i hmon
      have hm12 : d.month = 12 := by omega
      have hday31 : d.day = 31 := by
        rw [hm12] at hd2 hday
        simp only [daysInMonth] at hd2 hday
        norm_num at hd2 hday
        omega
      have hdby := daysBeforeYear_succ d.year hy
      have hdbm1 : daysBeforeMonth (d.year + 1) 1 = 0 := rfl
      have hdbm12 : daysBeforeMonth d.year 12 =
          306 + (if isLeap d.year then 29 else 28) := by
        cases h : isLeap d.year <;> simp [daysBeforeMonth, daysInMonth, h]
      rw [date_toOrdinal_mk, hord, hm12, hday31, hdbm1, hdbm12]
      cases h : isLeap d.year <;> simp only [h] at hdby hdbm12 ⊢ <;>
        simp at hdby ⊢ <;> omega

lemma addDays_spec (d : Date) (h : d.Valid) :
    ∀ n : Nat, (addDays d n).Valid ∧
      (addDays d n).toOrdinal = d.toOrdinal + n := by
  intro n
  induction n with
  | zero => exact ⟨h, rfl⟩
  | succ k ih =>
      refine ⟨valid_nextDay _ ih.1, ?_⟩
      show (nextDay (addDays d k)).toOrdinal = _
      rw [toOrdinal_nextDay _ ih.1, ih.2]
      omega

lemma naiveAbs_slotNaive (d : Date) (hd : d.Valid) (tma : Nat) :
    naiveAbs (slotNaive d tma) = d.toOrdinal * 86400000000 + tma * 60000000 := by
  have hadd := (addDays_spec d hd (tma / 60 / 24)).2
  simp only [naiveAbs, slotNaive, hadd]
  omega

lemma utcAbs_mk (n : Naive) (δ : Int) :
    utcAbs ⟨n, δ⟩ = (naiveAbs n : Int) - δ * 60000000 := rfl

/-! The run loop of `main` (lines 219-288 of aa.py), embedded as a step
function over an explicit list of per-iteration events. -/

/-- What the `subprocess.run` invocation inside `run_speedtest` does:
exit status zero with captured stdout, or one of the three anticipated
failure modes (lines 187-203 of aa.py). -/
inductive RunOutcome where
  | ok (stdout : String)
  | fileNotFound
  | exitNonZero (code : Int) (stderr : String)
  | otherError
  deriving DecidableEq

/-- Lines 169-203 of aa.py, `run_speedtest`: on success return the stripped
stdout, on any of the three anticipated failures print a diagnostic and
return `None`. -/
def run_speedtest (o : RunOutcome) : Option String :=
  match o with
  | .ok stdout => some stdout.trim
  | .fileNotFound => none
  | .exitNonZero _ _ => none
  | .otherError => none

/-- Lines 205-215 of aa.py, `append_to_file` over a log modelled as the
list of its lines: the write either succeeds, or raises and is swallowed
after printing a diagnostic (the Bool returned says whether the diagnostic
was printed; the log is unchanged in that case). -/
def append_to_file (log : List String) (line : String) (ioFails : Bool) :
    List String × Bool :=
  if ioFails then (log, true) else (log ++ [line], false)

/-- Zero-pad a numeral to two digits, as `strftime` field formatting. -/
def pad2 (n : Nat) : String :=
  if n < 10 then "0" ++ toString n else toString n

/-- Zero-pad a numeral to four digits, as `strftime` `%Y`. -/
def pad4 (n : Nat) : String :=
  if n < 10 then "000" ++ toString n
  else if n < 100 then "00" ++ toString n
  else if n < 1000 then "0" ++ toString n
  else toString n

/-- Line 257 of aa.py: `strftime of a quoted timestamp followed by a comma`
applied to the probe-start instant. -/
def formatTimestampPart (n : Naive) : String :=
  "\"" ++ pad4 n.date.year ++ "-" ++ pad2 n.date.month ++ "-" ++
    pad2 n.date.day ++ " " ++ pad2 n.hour ++ ":" ++ pad2 n.minute ++ ":" ++
    pad2 n.second ++ "\","

/-- The environment inputs consumed by one complete pass of the loop body
(lines 229-272): the clock reads, the probe outcome and whether the
file append raises. -/
structure IterationInput where
  now1 : DateTime
  calcClock : DateTime
  probeStart : DateTime
  probeOutcome : RunOutcome
  appendFails : Bool
  deriving DecidableEq

/-- The observable behaviour of one complete pass of the loop body. -/
structure IterationResult where
  target : DateTime
  waitMicros : Int
  sleptMicros : Nat
  probeCalls : Nat
  appendCalls : Nat
  log : List String
  diags : Nat
  deriving DecidableEq

/-- Lines 229-272 of aa.py, the loop body when it completes without an
exception escaping.  `now1` is the read at line 230; the wait is
`next_run_time - now` in microseconds with `now` that same first read
(line 239); a non-positive wait leads to the 0.1-second sleep of
line 249.  `calcClock` is the fresh read `calculate_next_run_time`
performs internally. -/
def iteration (δ : Int) (offset_minutes : Nat) (log : List String)
    (i : IterationInput) : IterationResult :=
  let now := i.now1
  let next_run_time :=
    calculate_next_run_time (zoneinfoFixed δ) i.calcClock now offset_minutes
  let wait_micros := utcAbs next_run_time - utcAbs now
  let slept_micros := if 0 < wait_micros then wait_micros.toNat else 100000
  let datetime_part := formatTimestampPart i.probeStart.wall
  match run_speedtest i.probeOutcome with
  | some speedtest_part =>
      let output_line := datetime_part ++ speedtest_part ++ "\n"
      let r := append_to_file log output_line i.appendFails
      { target := next_run_time, waitMicros := wait_micros,
        sleptMicros := slept_micros, probeCalls := 1, appendCalls := 1,
        log := r.1, diags := if r.2 then 1 else 0 }
  | none =>
      { target := next_run_time, waitMicros := wait_micros,
        sleptMicros := slept_micros, probeCalls := 1, appendCalls := 0,
        log := log, diags := 1 }

/-- One turn of the `while True` loop, seen from its exception boundary:
either the body runs to completion, or `KeyboardInterrupt` is raised
inside the `try` block (line 277 catches it), or another exception
escapes the body and the backoff of lines 280-285 runs to completion, or
such an exception is followed by a `KeyboardInterrupt` during the
60-second backoff sleep at line 285 — which is outside the `try` block
and therefore uncaught. -/
inductive LoopEvent where
  | runs (i : IterationInput)
  | interrupt
  | unexpected
  | unexpectedInterrupt
  deriving DecidableEq

/-- How the process leaves (or has not yet left) the loop. -/
inductive ExitOutcome where
  | running
  | exited (status : Nat) (terminationMsg : Bool)
  | uncaught
  deriving DecidableEq

/-- Cumulative observable behaviour of the loop over a list of events. -/
structure LoopTrace where
  log : List String
  probeCalls : Nat
  backoffSleeps : Nat
  diags : Nat
  outcome : ExitOutcome
  deriving DecidableEq

/-- Lines 227-288 of aa.py: run the loop over an event list.  A caught
interrupt breaks the loop, prints the termination message and reaches
`sys.exit(0)` (lines 277-279, 287-288); an uncaught interrupt during the
backoff sleep aborts the process with a traceback, skipping both. -/
def runLoop (δ : Int) (offset_minutes : Nat) :
    List String → List LoopEvent → LoopTrace
  | log, [] => ⟨log, 0, 0, 0, .running⟩
  | log, .runs i :: rest =>
      let r := iteration δ offset_minutes log i
      let t := runLoop δ offset_minutes r.log rest
      ⟨t.log, r.probeCalls + t.probeCalls, t.backoffSleeps,
        r.diags + t.diags, t.outcome⟩
  | log, .interrupt :: _ => ⟨log, 0, 0, 0, .exited 0 true⟩
  | log, .unexpected :: rest =>
      let t := runLoop δ offset_minutes log rest
      ⟨t.log, t.probeCalls, t.backoffSleeps + 1, t.diags + 1, t.outcome⟩
  | log, .unexpectedInterrupt :: _ => ⟨log, 0, 0, 1, .uncaught⟩

/-! Helper lemmas about the calculator under a transition-free zone. -/

lemma attachZone_fixed (δ : Int) (now : DateTime) (n : Naive) :
    attachZone (zoneinfoFixed δ) now n = ⟨n, δ⟩ := rfl

lemma calc_fixed (δ : Int) (clock current_time : DateTime) (off : Nat) :
    calculate_next_run_time (zoneinfoFixed δ) clock current_time off =
      if utcAbs clock <
          utcAbs ⟨slotNaive clock.wall.date (target1MinuteAbs clock off), δ⟩
      then ⟨slotNaive clock.wall.date (target1MinuteAbs clock off), δ⟩
      else ⟨slotNaive clock.wall.date (target2MinuteAbs clock off), δ⟩ := rfl

lemma slotNaive_minute (d : Date) (tma : Nat) :
    (slotNaive d tma).minute = tma % 60 := rfl

lemma slotNaive_second (d : Date) (tma : Nat) :
    (slotNaive d tma).second = 0 := rfl

/-- C1: for every valid timezone-aware instant and every offset in `[0,9]`,
the instant `calculate_next_run_time` produces under the configured
transition-free zone has minute-of-hour congruent to the offset modulo 10,
second zero, and is strictly greater (as a UTC instant) than the fresh
clock value the calculator read — the calculator never returns an instant
less than or equal to the instant it was given. -/
theorem c1_grid_alignment (now current_time : DateTime) (off : Nat)
    (hv : now.Valid) (hoff : off < 10) :
    (calculate_next_run_time (zoneinfoFixed now.offsetMin) now current_time
        off).wall.minute % 10 = off ∧
    (calculate_next_run_time (zoneinfoFixed now.offsetMin) now current_time
        off).wall.second = 0 ∧
    utcAbs now <
      utcAbs (calculate_next_run_time (zoneinfoFixed now.offsetMin) now
        current_time off) := by
  obtain ⟨hd, hh, hm, hs, hus⟩ := hv
  rw [calc_fixed]
  by_cases hc : utcAbs now <
      utcAbs ⟨slotNaive now.wall.date (target1MinuteAbs now off), now.offsetMin⟩
  · rw [if_pos hc]
    refine ⟨?_, rfl, hc⟩
    rw [show (⟨slotNaive now.wall.date (target1MinuteAbs now off),
          now.offsetMin⟩ : DateTime).wall =
        slotNaive now.wall.date (target1MinuteAbs now off) from rfl,
      slotNaive_minute]
    unfold target1MinuteAbs
    omega
  · rw [if_neg hc]
    refine ⟨?_, rfl, ?_⟩
    · rw [show (⟨slotNaive now.wall.date (target2MinuteAbs now off),
            now.offsetMin⟩ : DateTime).wall =
          slotNaive now.wall.date (target2MinuteAbs now off) from rfl,
        slotNaive_minute]
      unfold target2MinuteAbs
      omega
    · have h2 := naiveAbs_slotNaive now.wall.date hd (target2MinuteAbs now off)
      simp only [utcAbs, h2]
      unfold naiveAbs target2MinuteAbs
      push_cast
      omega

/-- Witness for C1 at a concrete instant (2024-06-01 10:03:00 +09:00,
offset 3). -/
theorem c1_witness :
    (calculate_next_run_time
        (zoneinfoFixed (540 : Int))
        ⟨⟨⟨2024, 6, 1⟩, 10, 3, 0, 0⟩, 540⟩
        ⟨⟨⟨2024, 6, 1⟩, 10, 3, 0, 0⟩, 540⟩ 3).wall.minute % 10 = 3 ∧
    (calculate_next_run_time
        (zoneinfoFixed (540 : Int))
        ⟨⟨⟨2024, 6, 1⟩, 10, 3, 0, 0⟩, 540⟩
        ⟨⟨⟨2024, 6, 1⟩, 10, 3, 0, 0⟩, 540⟩ 3).wall.second = 0 ∧
    utcAbs (⟨⟨⟨2024, 6, 1⟩, 10, 3, 0, 0⟩, 540⟩ : DateTime) <
      utcAbs (calculate_next_run_time
        (zoneinfoFixed (540 : Int))
        ⟨⟨⟨2024, 6, 1⟩, 10, 3, 0, 0⟩, 540⟩
        ⟨⟨⟨2024, 6, 1⟩, 10, 3, 0, 0⟩, 540⟩ 3) :=
  c1_grid_alignment ⟨⟨⟨2024, 6, 1⟩, 10, 3, 0, 0⟩, 540⟩
    ⟨⟨⟨2024, 6, 1⟩, 10, 3, 0, 0⟩, 540⟩ 3 (by decide) (by decide)

/-- C10: the result of `calculate_next_run_time` does not depend on its
`current_time` parameter — only on the clock value the function reads
internally, its offset argument, and the zone. -/
theorem c10_parameter_never_consulted (attach : Naive → Except Unit DateTime)
    (clock ct1 ct2 : DateTime) (off : Nat) :
    calculate_next_run_time attach clock ct1 off =
      calculate_next_run_time attach clock ct2 off := rfl

/-- C9: if the zone cannot attach the second candidate's local time (a
spring-forward gap) while the first candidate is not in the future, the
calculator still returns — no exception escapes — and the result is the
candidate rebuilt from the fixed UTC offset of `now`, exactly the
documented fallback. -/
theorem c9_gap_uses_fixed_offset_fallback
    (attach : Naive → Except Unit DateTime) (now current_time : DateTime)
    (off : Nat)
    (hgap : attach (slotNaive now.wall.date (target2MinuteAbs now off)) =
      .error ())
    (hpast : ¬ utcAbs now < utcAbs (attachZone attach now
      (slotNaive now.wall.date (target1MinuteAbs now off)))) :
    calculate_next_run_time attach now current_time off =
      ⟨slotNaive now.wall.date (target2MinuteAbs now off), now.offsetMin⟩ := by
  show (if utcAbs now < utcAbs (attachZone attach now
      (slotNaive now.wall.date (target1MinuteAbs now off)))
    then attachZone attach now
      (slotNaive now.wall.date (target1MinuteAbs now off))
    else attachZone attach now
      (slotNaive now.wall.date (target2MinuteAbs now off))) = _
  rw [if_neg hpast]
  unfold attachZone
  rw [hgap]

instance : DecidableEq (Except Unit DateTime) :=
  fun a b =>
    match a, b with
    | .ok x, .ok y =>
        if h : x = y then isTrue (by rw [h])
        else isFalse (fun hc => h (by cases hc; rfl))
    | .error x, .error y => isTrue (by cases x; cases y; rfl)
    | .ok _, .error _ => isFalse (fun hc => Except.noConfusion hc)
    | .error _, .ok _ => isFalse (fun hc => Except.noConfusion hc)

/-- A concrete zone with a spring-forward gap: on 2024-03-10 the local
hour 02 does not exist; before the gap the offset is -300 minutes, after
it -240 (US Eastern). -/
def easternGapAttach (n : Naive) : Except Unit DateTime :=
  if n.date = ⟨2024, 3, 10⟩ then
    (if n.hour = 2 then .error ()
     else if n.hour < 2 then .ok ⟨n, -300⟩ else .ok ⟨n, -240⟩)
  else if n.date.toOrdinal < (Date.toOrdinal ⟨2024, 3, 10⟩) then .ok ⟨n, -300⟩
  else .ok ⟨n, -240⟩

/-- Witness for C9: at 01:58 just before the gap with offset 5, the target
slot 02:05 falls inside the gap and the result is 02:05 at the fixed
pre-transition offset. -/
theorem c9_witness :
    calculate_next_run_time easternGapAttach
        ⟨⟨⟨2024, 3, 10⟩, 1, 58, 0, 0⟩, -300⟩
        ⟨⟨⟨2024, 3, 10⟩, 1, 58, 0, 0⟩, -300⟩ 5 =
      ⟨⟨⟨2024, 3, 10⟩, 2, 5, 0, 0⟩, -300⟩ := by
  have h := c9_gap_uses_fixed_offset_fallback easternGapAttach
    ⟨⟨⟨2024, 3, 10⟩, 1, 58, 0, 0⟩, -300⟩
    ⟨⟨⟨2024, 3, 10⟩, 1, 58, 0, 0⟩, -300⟩ 5 (by decide) (by decide)
  exact h.trans (by decide)

/-- C2: when the clock value lies exactly on a valid slot (minute-of-hour
congruent to the offset mod 10, second 0, microsecond 0), the calculator
does not return that instant but the slot of the following 10-minute
block, exactly 600000000 microseconds later and strictly in the future. -/
theorem c2_exact_boundary_next_block (now current_time : DateTime)
    (off : Nat) (hv : now.Valid) (hoff : off < 10)
    (hmin : now.wall.minute % 10 = off) (hsec : now.wall.second = 0)
    (hmic : now.wall.micro = 0) :
    naiveAbs (calculate_next_run_time (zoneinfoFixed now.offsetMin) now
        current_time off).wall = naiveAbs now.wall + 600000000 ∧
    (calculate_next_run_time (zoneinfoFixed now.offsetMin) now
        current_time off).offsetMin = now.offsetMin ∧
    utcAbs now < utcAbs (calculate_next_run_time
      (zoneinfoFixed now.offsetMin) now current_time off) := by
  obtain ⟨hd, hh, hm, hs, hus⟩ := hv
  have e1 := naiveAbs_slotNaive now.wall.date hd (target1MinuteAbs now off)
  have e2 := naiveAbs_slotNaive now.wall.date hd (target2MinuteAbs now off)
  have hc : ¬ utcAbs now <
      utcAbs ⟨slotNaive now.wall.date (target1MinuteAbs now off),
        now.offsetMin⟩ := by
    simp only [utcAbs, e1]
    unfold naiveAbs target1MinuteAbs
    push_cast
    omega
  rw [calc_fixed, if_neg hc]
  have hkey : naiveAbs (slotNaive now.wall.date (target2MinuteAbs now off)) =
      naiveAbs now.wall + 600000000 := by
    rw [e2]
    unfold naiveAbs target2MinuteAbs
    omega
  refine ⟨hkey, rfl, ?_⟩
  simp only [utcAbs, hkey]
  push_cast
  omega

/-- Witness for C2 at the concrete slot instant 2024-06-01 10:03:00.000000
with offset 3. -/
theorem c2_witness :
    naiveAbs (calculate_next_run_time (zoneinfoFixed (540 : Int))
        ⟨⟨⟨2024, 6, 1⟩, 10, 3, 0, 0⟩, 540⟩
        ⟨⟨⟨2024, 6, 1⟩, 10, 3, 0, 0⟩, 540⟩ 3).wall =
      naiveAbs (⟨⟨2024, 6, 1⟩, 10, 3, 0, 0⟩ : Naive) + 600000000 ∧
    (calculate_next_run_time (zoneinfoFixed (540 : Int))
        ⟨⟨⟨2024, 6, 1⟩, 10, 3, 0, 0⟩, 540⟩
        ⟨⟨⟨2024, 6, 1⟩, 10, 3, 0, 0⟩, 540⟩ 3).offsetMin = 540 ∧
    utcAbs (⟨⟨⟨2024, 6, 1⟩, 10, 3, 0, 0⟩, 540⟩ : DateTime) <
      utcAbs (calculate_next_run_time (zoneinfoFixed (540 : Int))
        ⟨⟨⟨2024, 6, 1⟩, 10, 3, 0, 0⟩, 540⟩
        ⟨⟨⟨2024, 6, 1⟩, 10, 3, 0, 0⟩, 540⟩ 3) :=
  c2_exact_boundary_next_block ⟨⟨⟨2024, 6, 1⟩, 10, 3, 0, 0⟩, 540⟩
    ⟨⟨⟨2024, 6, 1⟩, 10, 3, 0, 0⟩, 540⟩ 3 (by decide) (by decide)
    (by decide) (by decide) (by decide)

/-- C8: at 23:58:00 on the last day of any month with offset 5, the
calculator returns the 1st of the following month (of the following year
when the month is December) at 00:05:00. -/
theorem c8_month_rollover (now current_time : DateTime) (hv : now.Valid)
    (hlast : now.wall.date.day =
      daysInMonth now.wall.date.year now.wall.date.month)
    (hh : now.wall.hour = 23) (hm : now.wall.minute = 58)
    (hs : now.wall.second = 0) :
    calculate_next_run_time (zoneinfoFixed now.offsetMin) now current_time 5 =
      ⟨⟨(if now.wall.date.month = 12 then ⟨now.wall.date.year + 1, 1, 1⟩
          else ⟨now.wall.date.year, now.wall.date.month + 1, 1⟩),
        0, 5, 0, 0⟩, now.offsetMin⟩ := by
  obtain ⟨hd, hhb, hmb, hsb, husb⟩ := hv
  have e1 := naiveAbs_slotNaive now.wall.date hd (target1MinuteAbs now 5)
  have hc : ¬ utcAbs now <
      utcAbs ⟨slotNaive now.wall.date (target1MinuteAbs now 5),
        now.offsetMin⟩ := by
    simp only [utcAbs, e1]
    unfold naiveAbs target1MinuteAbs
    rw [hh, hm]
    push_cast
    omega
  rw [calc_fixed, if_neg hc]
  have htma : target2MinuteAbs now 5 = 1445 := by
    unfold target2MinuteAbs
    rw [hh, hm]
  have hslot : slotNaive now.wall.date 1445 =
      ⟨nextDay now.wall.date, 0, 5, 0, 0⟩ := by
    unfold slotNaive
    norm_num
    rfl
  have hnext : nextDay now.wall.date =
      (if now.wall.date.month = 12 then ⟨now.wall.date.year + 1, 1, 1⟩
        else ⟨now.wall.date.year, now.wall.date.month + 1, 1⟩) := by
    obtain ⟨hy1, hmo1, hmo2, hdy1, hdy2⟩ := hd
    unfold nextDay
    rw [if_neg (by omega)]
    by_cases h12 : now.wall.date.month = 12
    · rw [if_neg (by omega), if_pos h12]
    · rw [if_pos (by omega), if_neg h12]
  rw [htma, hslot, hnext]

/-- Witness for C8 at 2024-01-31 23:58:00 +09:00 and at 2023-12-31
23:58:00 +09:00 (year rollover). -/
theorem c8_witness :
    calculate_next_run_time (zoneinfoFixed (540 : Int))
        ⟨⟨⟨2024, 1, 31⟩, 23, 58, 0, 0⟩, 540⟩
        ⟨⟨⟨2024, 1, 31⟩, 23, 58, 0, 0⟩, 540⟩ 5 =
      ⟨⟨⟨2024, 2, 1⟩, 0, 5, 0, 0⟩, 540⟩ ∧
    calculate_next_run_time (zoneinfoFixed (540 : Int))
        ⟨⟨⟨2023, 12, 31⟩, 23, 58, 0, 0⟩, 540⟩
        ⟨⟨⟨2023, 12, 31⟩, 23, 58, 0, 0⟩, 540⟩ 5 =
      ⟨⟨⟨2024, 1, 1⟩, 0, 5, 0, 0⟩, 540⟩ := by
  constructor
  · have h := c8_month_rollover ⟨⟨⟨2024, 1, 31⟩, 23, 58, 0, 0⟩, 540⟩
      ⟨⟨⟨2024, 1, 31⟩, 23, 58, 0, 0⟩, 540⟩ (by decide) (by decide)
      (by decide) (by decide) (by decide)
    exact h.trans (by decide)
  · have h := c8_month_rollover ⟨⟨⟨2023, 12, 31⟩, 23, 58, 0, 0⟩, 540⟩
      ⟨⟨⟨2023, 12, 31⟩, 23, 58, 0, 0⟩, 540⟩ (by decide) (by decide)
      (by decide) (by decide) (by decide)
    exact h.trans (by decide)

/-! Concrete inputs used by the loop-claim witnesses and counterexamples. -/

def sampleDT : DateTime := ⟨⟨⟨2024, 6, 1⟩, 12, 3, 0, 0⟩, 540⟩

def failInput : IterationInput :=
  ⟨sampleDT, sampleDT, sampleDT, .exitNonZero 2 "connection timed out", false⟩

def okBadDiskInput : IterationInput :=
  ⟨sampleDT, sampleDT, sampleDT, .ok "out", true⟩

def okInput : IterationInput :=
  ⟨sampleDT, sampleDT, sampleDT, .ok "result", false⟩

/-- The first clock read trails the calculator's internal re-read by
0.1 seconds, so the computed wait (target minus first read) exceeds
target minus the re-read. -/
def driftInput : IterationInput :=
  ⟨⟨⟨⟨2024, 6, 1⟩, 12, 2, 59, 900000⟩, 540⟩,
    ⟨⟨⟨2024, 6, 1⟩, 12, 3, 0, 0⟩, 540⟩, sampleDT, .fileNotFound, false⟩

/-- The first clock read is already past the computed target, so the wait
is negative. -/
def regressInput : IterationInput :=
  ⟨⟨⟨⟨2024, 6, 1⟩, 12, 14, 0, 0⟩, 540⟩,
    ⟨⟨⟨2024, 6, 1⟩, 12, 3, 0, 0⟩, 540⟩, sampleDT, .fileNotFound, false⟩

/-- C3: an iteration whose probe invocation yields a failure
(`run_speedtest` returns `None`) appends nothing to the log — the append
is never even called — and the loop proceeds with the next events
exactly as if the iteration had not touched the log. -/
theorem c3_failure_skips_logging (δ : Int) (off : Nat) (log : List String)
    (i : IterationInput) (rest : List LoopEvent)
    (h : run_speedtest i.probeOutcome = none) :
    (iteration δ off log i).log = log ∧
    (iteration δ off log i).appendCalls = 0 ∧
    (runLoop δ off log (.runs i :: rest)).log =
      (runLoop δ off log rest).log ∧
    (runLoop δ off log (.runs i :: rest)).outcome =
      (runLoop δ off log rest).outcome := by
  have hl : (iteration δ off log i).log = log := by
    simp [iteration, h]
  have ha : (iteration δ off log i).appendCalls = 0 := by
    simp [iteration, h]
  refine ⟨hl, ha, ?_, ?_⟩ <;> simp [runLoop, hl]

/-- Witness for C3 with a non-zero-exit probe failure. -/
theorem c3_witness :
    (iteration 540 3 [] failInput).log = [] ∧
    (iteration 540 3 [] failInput).appendCalls = 0 ∧
    (runLoop 540 3 [] (.runs failInput :: [])).log =
      (runLoop 540 3 [] []).log ∧
    (runLoop 540 3 [] (.runs failInput :: [])).outcome =
      (runLoop 540 3 [] []).outcome :=
  c3_failure_skips_logging 540 3 [] failInput [] (by decide)

/-- C7: when the probe succeeds but the append raises, the iteration makes
exactly one append attempt (no retry), emits one diagnostic, leaves the
log unchanged, and the loop continues to the next slot with outcome and
log as if untouched. -/
theorem c7_append_failure_contained (δ : Int) (off : Nat)
    (log : List String) (i : IterationInput) (rest : List LoopEvent)
    (s : String) (h1 : run_speedtest i.probeOutcome = some s)
    (h2 : i.appendFails = true) :
    (iteration δ off log i).log = log ∧
    (iteration δ off log i).appendCalls = 1 ∧
    (iteration δ off log i).diags = 1 ∧
    (runLoop δ off log (.runs i :: rest)).log =
      (runLoop δ off log rest).log ∧
    (runLoop δ off log (.runs i :: rest)).outcome =
      (runLoop δ off log rest).outcome := by
  have hl : (iteration δ off log i).log = log := by
    simp [iteration, h1, append_to_file, h2]
  have ha : (iteration δ off log i).appendCalls = 1 := by
    simp [iteration, h1]
  have hdg : (iteration δ off log i).diags = 1 := by
    simp [iteration, h1, append_to_file, h2]
  refine ⟨hl, ha, hdg, ?_, ?_⟩ <;> simp [runLoop, hl]

/-- Witness for C7 at a concrete successful probe with failing append. -/
theorem c7_witness :
    (iteration 540 3 [] okBadDiskInput).log = [] ∧
    (iteration 540 3 [] okBadDiskInput).appendCalls = 1 ∧
    (iteration 540 3 [] okBadDiskInput).diags = 1 ∧
    (runLoop 540 3 [] (.runs okBadDiskInput :: [])).log =
      (runLoop 540 3 [] []).log ∧
    (runLoop 540 3 [] (.runs okBadDiskInput :: [])).outcome =
      (runLoop 540 3 [] []).outcome :=
  c7_append_failure_contained 540 3 [] okBadDiskInput [] ("out".trim)
    rfl rfl

/-- C4 counterexample: at `driftInput` the slept duration is the wait
computed from the iteration's first clock read, 600.1 seconds, and not
target minus the re-read value (600.0 seconds); and at `regressInput`,
where the target is already past, the loop does not proceed without
sleeping — it sleeps 0.1 seconds. -/
theorem c4_claim_counterexample :
    (iteration 540 3 [] driftInput).sleptMicros ≠
      (utcAbs (iteration 540 3 [] driftInput).target -
        utcAbs driftInput.calcClock).toNat ∧
    (iteration 540 3 [] regressInput).waitMicros ≤ 0 ∧
    (iteration 540 3 [] regressInput).sleptMicros ≠ 0 := by
  decide

/-- C4 as amended: the wait is target minus the iteration's FIRST clock
read `now1` (the target itself comes from the calculator's own fresh
read `calcClock`); a positive wait is slept in full, and a non-positive
wait leads to a fixed 0.1-second sleep before the probe, not to
proceeding without sleeping. -/
theorem c4_sleep_from_first_read (δ : Int) (off : Nat)
    (log : List String) (i : IterationInput) :
    (iteration δ off log i).target =
      calculate_next_run_time (zoneinfoFixed δ) i.calcClock i.now1 off ∧
    (iteration δ off log i).waitMicros =
      utcAbs (iteration δ off log i).target - utcAbs i.now1 ∧
    (iteration δ off log i).sleptMicros =
      (if 0 < (iteration δ off log i).waitMicros
        then (iteration δ off log i).waitMicros.toNat else 100000) := by
  cases h : run_speedtest i.probeOutcome <;>
    simp [iteration, h, append_to_file]

/-- C5 counterexample: an interrupt arriving during the 60-second backoff
sleep (which is inside the `except` handler, outside the `try` block)
does not produce the graceful status-0 exit with a termination message;
the process aborts with an uncaught exception. -/
theorem c5_claim_counterexample :
    (runLoop 540 3 [] [.unexpectedInterrupt]).outcome ≠ .exited 0 true ∧
    (runLoop 540 3 [] [.unexpectedInterrupt]).outcome = .uncaught := by
  decide

def isRun : LoopEvent → Bool
  | .runs _ => true
  | _ => false

/-- C5 as amended: an interrupt raised inside the `try` block (for
example during the pre-slot sleep) after any number of completed
iterations makes the loop print the termination message and exit with
status 0, performing no further probe invocation; but an interrupt
during the 60-second backoff sleep escapes uncaught instead. -/
theorem c5_interrupt_graceful_in_try (δ : Int) (off : Nat)
    (log : List String) (pre post : List LoopEvent)
    (h : pre.all isRun = true) :
    (runLoop δ off log (pre ++ .interrupt :: post)).outcome =
      .exited 0 true ∧
    runLoop δ off log (pre ++ .interrupt :: post) =
      runLoop δ off log (pre ++ [.interrupt]) ∧
    (runLoop δ off log (pre ++ .interrupt :: post)).probeCalls =
      (runLoop δ off log pre).probeCalls ∧
    (runLoop 540 3 [] [.unexpectedInterrupt]).outcome = .uncaught := by
  induction pre generalizing log with
  | nil => exact ⟨rfl, rfl, rfl, rfl⟩
  | cons e pre ih =>
      cases e with
      | runs i =>
          have h2 : pre.all isRun = true := by
            simpa [isRun] using h
          obtain ⟨o1, e1, p1, _⟩ := ih (iteration δ off log i).log h2
          refine ⟨?_, ?_, ?_, rfl⟩
          · simpa [runLoop] using o1
          · simp [runLoop, e1]
          · simp [runLoop, p1]
      | interrupt => simp [isRun] at h
      | unexpected => simp [isRun] at h
      | unexpectedInterrupt => simp [isRun] at h

/-- Witness for C5 (amended) after one completed iteration, with further
events pending after the interrupt. -/
theorem c5_witness :
    (runLoop 540 3 [] ([.runs okInput] ++ .interrupt ::
        [.runs okInput])).outcome = .exited 0 true ∧
    runLoop 540 3 [] ([.runs okInput] ++ .interrupt :: [.runs okInput]) =
      runLoop 540 3 [] ([.runs okInput] ++ [.interrupt]) ∧
    (runLoop 540 3 [] ([.runs okInput] ++ .interrupt ::
        [.runs okInput])).probeCalls =
      (runLoop 540 3 [] [.runs okInput]).probeCalls ∧
    (runLoop 540 3 [] [.unexpectedInterrupt]).outcome = .uncaught :=
  c5_interrupt_graceful_in_try 540 3 [] [.runs okInput] [.runs okInput]
    (by decide)

def nonStopping : LoopEvent → Bool
  | .runs _ => true
  | .unexpected => true
  | _ => false

/-- C6: an unexpected exception escaping the loop body is caught at the
loop boundary, adds one diagnostic and one completed 60-second backoff
sleep, leaves the log untouched, and the loop resumes: over any event
list consisting of completed iterations (with arbitrary probe and append
failures) and unexpected errors, the loop never terminates. -/
theorem c6_unexpected_recoverable (δ : Int) (off : Nat)
    (log : List String) (evs rest : List LoopEvent)
    (h : evs.all nonStopping = true) :
    (runLoop δ off log evs).outcome = .running ∧
    (runLoop δ off log (.unexpected :: rest)).backoffSleeps =
      (runLoop δ off log rest).backoffSleeps + 1 ∧
    (runLoop δ off log (.unexpected :: rest)).diags =
      (runLoop δ off log rest).diags + 1 ∧
    (runLoop δ off log (.unexpected :: rest)).log =
      (runLoop δ off log rest).log ∧
    (runLoop δ off log (.unexpected :: rest)).outcome =
      (runLoop δ off log rest).outcome := by
  have main : ∀ (evs2 : List LoopEvent) (log2 : List String),
      evs2.all nonStopping = true →
        (runLoop δ off log2 evs2).outcome = .running := by
    intro evs2
    induction evs2 with
    | nil => intro log2 _; rfl
    | cons e t ih =>
        intro log2 hh
        cases e with
        | runs i =>
            have h2 : t.all nonStopping = true := by
              simpa [nonStopping] using hh
            simpa [runLoop] using ih (iteration δ off log2 i).log h2
        | unexpected =>
            have h2 : t.all nonStopping = true := by
              simpa [nonStopping] using hh
            simpa [runLoop] using ih log2 h2
        | interrupt => simp [nonStopping] at hh
        | unexpectedInterrupt => simp [nonStopping] at hh
  exact ⟨main evs log h, by simp [runLoop], by simp [runLoop],
    by simp [runLoop], by simp [runLoop]⟩

/-- Witness for C6 over a mixed event list. -/
theorem c6_witness :
    (runLoop 540 3 [] [.runs okInput, .unexpected,
        .runs failInput]).outcome = .running ∧
    (runLoop 540 3 [] (.unexpected :: [.runs okInput])).backoffSleeps =
      (runLoop 540 3 [] [.runs okInput]).backoffSleeps + 1 ∧
    (runLoop 540 3 [] (.unexpected :: [.runs okInput])).diags =
      (runLoop 540 3 [] [.runs okInput]).diags + 1 ∧
    (runLoop 540 3 [] (.unexpected :: [.runs okInput])).log =
      (runLoop 540 3 [] [.runs okInput]).log ∧
    (runLoop 540 3 [] (.unexpected :: [.runs okInput])).outcome =
      (runLoop 540 3 [] [.runs okInput]).outcome :=
  c6_unexpected_recoverable 540 3 []
    [.runs okInput, .unexpected, .runs failInput] [.runs okInput]
    (by decide)

end P188Speedtest
